import Mathlib

set_option maxHeartbeats 1000000

/- Verification of the ifr_router navdata / route-resolver code
   (src/navdata.py and src/ifrroute.py), as a shallow embedding.

   Modelling conventions, used throughout:
   * Python dictionaries that represent navaid records become the
     structure `NavRec`.  The optional dictionary keys `inAwy` / `outAwy`
     are modelled as `Option (Option Airway)`: `none` means the key is
     absent, `some none` is the key holding Python `None`, and
     `some (some a)` is the key holding the airway `a`.
   * Coordinates are pairs of integers (decimal degrees scaled by 100).
     The code only ever compares coordinates for equality ("exact float
     equality suffices because values come from the same source text",
     spec section 4.2); the great-circle distance of ifrroute.py is used
     purely as a sort key, so it is taken as an explicit function
     parameter `dist` instead of embedding trigonometry.
   * The navaid index is an association list `String × List NavRec`; the
     Python code mutates stored records through aliases (the `choice`
     argument of `append`), so the index is threaded through `append`
     and a `choice` is a reference `(code, position)` into the index.
   * A Python `raise` / uncaught exception is the `crash` outcome; list
     indexing that can fail out of range is modelled the same way.
   * Loops are driven by an explicit fuel argument so that every
     definition stays structurally recursive and kernel-evaluable; the
     top-level entry points supply fuel that is provably sufficient.
-/

/-- A navaid stub: identifier code plus coordinate, the two fields every
record shares and the only ones the resolver and assembler ever compare
(navdata.py keeps further kind-specific fields — elevation, frequency,
name, … — that no comparison or claim touches). -/
structure Navaid where
  code : String
  lat : Int
  lon : Int
deriving DecidableEq, Repr

/-- One point of an assembled airway: the navaid stub plus base/top of
the outgoing edge (navdata.py lines 319–327; `none` = Python `None`). -/
structure AwyPoint where
  base : Option Int
  top : Option Int
  navaid : Navaid
deriving DecidableEq, Repr

/-- An assembled airway (navdata.py lines 316–327). -/
structure Airway where
  code : String
  high : Bool
  waypoints : List AwyPoint
deriving DecidableEq, Repr

/-- A navaid record as stored in the index or committed to a route.
`inAwy?`/`outAwy?` model the optional dict keys (see file comment). -/
structure NavRec where
  nav : Navaid
  inAwy? : Option (Option Airway) := none
  outAwy? : Option (Option Airway) := none
deriving DecidableEq, Repr

abbrev NavIndex := List (String × List NavRec)

abbrev AwyIndex := List (String × List Airway)

/-- Association-list lookup, modelling Python `d[k]` / `k in d`. -/
def lookupIdx {α : Type} : List (String × α) → String → Option α
  | [], _ => none
  | (k, v) :: rest, key => if k = key then some v else lookupIdx rest key

/-- Write-through update of the record at position `k` of the list stored
under `key`: this is how the aliasing mutation `choice.update(...)`
(ifrroute.py line 68) acts on the shared index. -/
def updateIdx (idx : NavIndex) (key : String) (k : Nat) (r : NavRec) : NavIndex :=
  idx.map (fun p => if p.1 = key then (p.1, p.2.set k r) else p)

/-- The value of the `inAwy` key, reading an absent key as null. -/
def inVal (r : NavRec) : Option Airway := r.inAwy?.getD none

/-- The value of the `outAwy` key, reading an absent key as null. -/
def outVal (r : NavRec) : Option Airway := r.outAwy?.getD none

/-- The seam condition of spec section 3: consecutive route waypoints
either share an airway (`outAwy` of the first equals `inAwy` of the
second, both non-null) or are joined direct (both null).  As an equation
of `Option Airway` values this is exactly `outVal x = inVal y`. -/
def seamOk (x y : NavRec) : Prop := outVal x = inVal y

instance (x y : NavRec) : Decidable (seamOk x y) := by
  unfold seamOk; infer_instance

/- ## Tokenisation (ifrroute.py line 38: `route.upper().split()`) -/

/-- Whitespace splitting of a character stream, accumulating the current
token in reverse; models Python `str.split()` (no empty tokens). -/
def splitWsChars : List Char → List Char → List String
  | [], cur => if cur.isEmpty then [] else [String.mk cur.reverse]
  | c :: cs, cur =>
    if c.isWhitespace then
      if cur.isEmpty then splitWsChars cs []
      else String.mk cur.reverse :: splitWsChars cs []
    else splitWsChars cs (c :: cur)

/-- `route.upper().split()`. -/
def tokenize (route : String) : List String :=
  splitWsChars (route.data.map Char.toUpper) []

/- ## NavData.findAirway (navdata.py lines 41–75) -/

/-- A fresh copy of an airway waypoint's navaid, with `inAwy` set to the
airway and `outAwy` set to `None` (navdata.py lines 60–61 / 71–72). -/
def awyCopy (a : Airway) (n : Navaid) : NavRec :=
  { nav := n, inAwy? := some (some a), outAwy? := some none }

/-- `waypoints[-1]['outAwy'] = airway` on a local accumulator
(navdata.py line 70); the empty list is left alone because the source
guards with `len(waypoints) != 0`. -/
def setLastOut (a : Airway) : List NavRec → List NavRec
  | [] => []
  | [r] => [{ r with outAwy? := some (some a) }]
  | r :: rs => r :: setLastOut a rs

/-- The walk over one airway's ordered points (navdata.py lines 51–73):
state is the `foundSrc` / `foundDest` flags plus the accumulated
traversal.  Returns the traversal on success. -/
def walkA (a : Airway) (srcCode dest : String) :
    List AwyPoint → Bool → Bool → List NavRec → Option (List NavRec)
  | [], _, _, _ => none
  | p :: rest, fS, fD, acc =>
    if p.navaid.code = srcCode then
      if fD then some acc.reverse
      else walkA a srcCode dest rest true fD acc
    else if p.navaid.code = dest then
      if fS then some (acc ++ [awyCopy a p.navaid])
      else walkA a srcCode dest rest fS true (acc ++ [awyCopy a p.navaid])
    else if fS || fD then
      walkA a srcCode dest rest fS fD (setLastOut a acc ++ [awyCopy a p.navaid])
    else walkA a srcCode dest rest fS fD acc

/-- The `for airway in airways` loop of navdata.py lines 47–73: the
first airway whose walk succeeds wins. -/
def firstWalk (srcCode dest : String) : List Airway → Option (List NavRec × Airway)
  | [] => none
  | a :: rest =>
    match walkA a srcCode dest a.waypoints false false [] with
    | some ws => some (ws, a)
    | none => firstWalk srcCode dest rest

/-- `NavData.findAirway(code, src, dest)` (navdata.py lines 41–75). -/
def findAirway (awys : AwyIndex) (code : String) (src : NavRec) (dest : String) :
    Option (List NavRec × Airway) :=
  match lookupIdx awys code with
  | none => none
  | some airways => firstWalk src.nav.code dest airways

/- ## IfrRoute._findAirway (ifrroute.py lines 148–155) -/

/-- `IfrRoute._findAirway`: on success it patches `outAwy` of the
route's last committed waypoint, appends the traversal, and returns the
traversal's final navaid; on failure it returns `(False, src)` with the
route untouched.  `none` models a raised exception (`waypoints[-1]` on
an empty route, on a route whose last entry is Python `None`, or an
empty traversal). -/
def routeFindAirway (awys : AwyIndex) (code : String) (src : NavRec) (dest : String)
    (wps : List (Option NavRec)) : Option (Bool × NavRec × List (Option NavRec)) :=
  match findAirway awys code src dest with
  | none => some (false, src, wps)
  | some (ws, a) =>
    match wps.getLast? with
    | some (some r) =>
      match ws.getLast? with
      | some last =>
        some (true, last,
          (wps.dropLast ++ [some { r with outAwy? := some (some a) }]) ++ ws.map some)
      | none => none
    | _ => none

example : tokenize "kbos dct  kjfk" = ["KBOS", "DCT", "KJFK"] := by decide

/- ## IfrRoute.append (ifrroute.py lines 36–144) -/

/-- The failure dictionary returned by `append` (ifrroute.py lines
80–81 / 135–136).  `remaining` is kept as the token list it is joined
from; `wp1`/`wp2` are the bracketing token texts or Python `None`. -/
structure RouteFailure where
  remaining : List String
  navaid : Bool
  code : String
  choices : List NavRec
  wp1 : Option String
  wp2 : Option String
deriving DecidableEq, Repr

/-- Outcome of an `append` call: success or a `RouteFailure`, each with
the final navaid index and route waypoint list, or a raised exception.
Route entries are `Option NavRec` because ifrroute.py appends the
Python `None` returned by `choice.update(...)` (line 68) and a `None`
placeholder (line 105). -/
inductive AOut where
  | ok (idx : NavIndex) (wps : List (Option NavRec))
  | fail (f : RouteFailure) (idx : NavIndex) (wps : List (Option NavRec))
  | crash
deriving DecidableEq, Repr

/-- The three literal routing markers (ifrroute.py line 47). -/
def markerTok (t : String) : Bool := t = "DCT" || t = "SID" || t = "STAR"

/-- The failure dictionary (ifrroute.py lines 76–81 and 130–136):
`navaid` is false when the surrounding context allowed an airway
interpretation, in which case the bracketing token texts are attached. -/
def mkFail (rem : List String) (eA : Bool) (lw : Option NavRec) (toks : List String)
    (i : Nat) (code : String) (choices : List NavRec) : RouteFailure :=
  if eA && lw.isSome && (i != toks.length - 1) then
    { remaining := rem, navaid := false, code := code, choices := choices
      wp1 := toks.get? (i - 1), wp2 := toks.get? (i + 1) }
  else
    { remaining := rem, navaid := true, code := code, choices := choices
      wp1 := none, wp2 := none }

/-- Stable ascending insertion by key, modelling Python's stable
`sorted(navaids, key = ...)` (ifrroute.py lines 89–90). -/
def insertByKey (key : NavRec → Int) (r : NavRec) : List NavRec → List NavRec
  | [] => [r]
  | x :: xs => if key r ≤ key x then r :: x :: xs else x :: insertByKey key r xs

/-- Stable insertion sort by key. -/
def sortByKey (key : NavRec → Int) : List NavRec → List NavRec
  | [] => []
  | x :: xs => insertByKey key x (sortByKey key xs)

/-- Outcome of the candidate loop of ifrroute.py lines 106–115. -/
inductive TryOut where
  | crashT
  | found (lw : NavRec) (wps : List (Option NavRec))
  | nofind (wps : List (Option NavRec))
deriving Repr

/-- The `for navaid in navaids` loop (ifrroute.py lines 107–115): each
candidate is tentatively written over the route's last slot
(`self.waypoints[-1] = waypoint`) and the adjoining airway is tried;
the first candidate with a matching airway wins. -/
def tryCandidates (awys : AwyIndex) (aTok dTok : String) :
    List NavRec → List (Option NavRec) → TryOut
  | [], wpsCur => TryOut.nofind wpsCur
  | c :: cs, wpsCur =>
    let wps' := wpsCur.dropLast ++ [some { c with inAwy? := some none, outAwy? := some none }]
    match routeFindAirway awys aTok c dTok wps' with
    | none => TryOut.crashT
    | some (true, lw2, wps2) => TryOut.found lw2 wps2
    | some (false, _, wps2) => tryCandidates awys aTok dTok cs wps2

/-- Result of the airway-expectation stage (ifrroute.py lines 53–64). -/
inductive AirRes where
  | crashA
  | went (lw : NavRec) (wps : List (Option NavRec))
  | fell (lw : Option NavRec) (wps : List (Option NavRec))

/-- The airway-expectation stage (ifrroute.py lines 53–64): engaged only
when an airway is expected, a previous waypoint exists and the token is
not last; `went` means the airway matched and two tokens are consumed,
`fell` is the fall-through to the waypoint stage (note the source's
`found, lastWaypoint = self._findAirway(...)` reassigns `lastWaypoint`
to the unchanged source record on failure). -/
def airStage (awys : AwyIndex) (toks : List String) (i : Nat) (eA : Bool)
    (lw : Option NavRec) (wps : List (Option NavRec)) : AirRes :=
  if eA then
    match lw with
    | some src =>
      if i != toks.length - 1 then
        match routeFindAirway awys (toks.getD i "") src (toks.getD (i + 1) "") wps with
        | none => AirRes.crashA
        | some (true, l2, w2) => AirRes.went l2 w2
        | some (false, l2, w2) => AirRes.fell (some l2) w2
      else AirRes.fell lw wps
    | none => AirRes.fell lw wps
  else AirRes.fell lw wps

/-- Candidate sort of ifrroute.py lines 85–90: stable ascending by
distance from the last committed waypoint (origin `(0, 0)` when there
is none). -/
def bestSorted (dist : Int × Int → Int × Int → Int) (lw : Option NavRec)
    (navaids : List NavRec) : List NavRec :=
  sortByKey (fun r =>
    dist (match lw with
          | some r0 => (r0.nav.lat, r0.nav.lon)
          | none => (0, 0))
      (r.nav.lat, r.nav.lon)) navaids

/-- One step of the resolver: either the loop finishes (a `return` /
`break` of ifrroute.py) or it continues with a new loop state.  The
state mirrors the Python local variables: token position `i`, the
`expecting` flags `eW`/`eA`/`eD`, `lastWaypoint`, `choice`, `remaining`,
plus the (mutable, aliased) navaid index and the route waypoints. -/
inductive StepRes where
  | finish (out : AOut)
  | next (i : Nat) (eW eA eD : Bool) (lw : Option NavRec)
      (choice : Option (String × Nat)) (rem : List String)
      (idx : NavIndex) (wps : List (Option NavRec))

def appendStep (dist : Int × Int → Int × Int → Int) (awys : AwyIndex) (toks : List String)
    (bG mOk : Bool) (i : Nat) (eW eA eD : Bool) (lw : Option NavRec)
    (choice : Option (String × Nat)) (rem : List String) (idx : NavIndex)
    (wps : List (Option NavRec)) : StepRes :=
  if i < toks.length then
    -- lines 46–51: routing-marker check (note: the source does not
    -- advance i before `continue`)
    if eD && (i != toks.length - 1) && markerTok (toks.getD i "") then
      StepRes.next i true false false lw choice rem idx wps
    else
      match airStage awys toks i eA lw wps with
      | AirRes.crashA => StepRes.finish AOut.crash
      | AirRes.went l2 w2 =>
        -- lines 57–64: i += 2; break on end of tokens, else continue
        if i + 2 = toks.length then StepRes.finish (AOut.ok idx w2)
        else StepRes.next (i + 2) true true true (some l2) choice rem idx w2
      | AirRes.fell lw1 wps1 =>
        if eW then
          match choice with
          | some cref =>
            -- lines 67–70: commit the caller's choice.  `choice.update`
            -- mutates the aliased index record and returns Python None,
            -- which is what gets appended to the route.
            match lookupIdx idx cref.1 with
            | none => StepRes.finish AOut.crash
            | some l =>
              match l.get? cref.2 with
              | none => StepRes.finish AOut.crash
              | some r =>
                StepRes.next (i + 1) eW true true
                  (some { r with inAwy? := some none, outAwy? := some none }) none
                  (toks.drop (i + 1))
                  (updateIdx idx cref.1 cref.2 { r with inAwy? := some none, outAwy? := some none })
                  (wps1 ++ [none])
          | none =>
            match lookupIdx idx (toks.getD i "") with
            | none =>
              -- lines 72–81: unknown identifier
              if !mOk then
                StepRes.finish (AOut.fail (mkFail rem eA lw1 toks i (toks.getD i "") []) idx wps1)
              else StepRes.next (i + 1) eW true true lw1 none (toks.drop (i + 1)) idx wps1
            | some navaids =>
              if bG then
                -- lines 84–122: best-guess path
                if (bestSorted dist lw1 navaids).length = 1 || decide (toks.length ≤ i + 2) then
                  -- lines 92–102: sole candidate / no room for an airway
                  match bestSorted dist lw1 navaids with
                  | [] => StepRes.finish AOut.crash
                  | r0 :: _ =>
                    if i + 2 < toks.length then
                      match routeFindAirway awys (toks.getD (i + 1) "") r0 (toks.getD (i + 2) "")
                          (wps1 ++ [some { r0 with inAwy? := some none, outAwy? := some none }]) with
                      | none => StepRes.finish AOut.crash
                      | some (true, l2, w3) =>
                        StepRes.next (i + 3) eW true true (some l2) none (toks.drop (i + 3)) idx w3
                      | some (false, l2, w3) =>
                        StepRes.next (i + 1) eW true true (some l2) none (toks.drop (i + 1)) idx w3
                    else
                      -- note: lastWaypoint is NOT updated on this path
                      StepRes.next (i + 1) eW true true lw1 none (toks.drop (i + 1)) idx
                        (wps1 ++ [some { r0 with inAwy? := some none, outAwy? := some none }])
                else if i + 2 < toks.length then
                  -- lines 103–122: several candidates with a possible
                  -- adjoining airway; a None placeholder is appended first
                  match tryCandidates awys (toks.getD (i + 1) "") (toks.getD (i + 2) "")
                      (bestSorted dist lw1 navaids) (wps1 ++ [none]) with
                  | TryOut.crashT => StepRes.finish AOut.crash
                  | TryOut.found l2 w3 =>
                    StepRes.next (i + 3) eW true true (some l2) none (toks.drop (i + 3)) idx w3
                  | TryOut.nofind w3 =>
                    -- lines 116–122: no adjoining airway worked; the raw
                    -- stored record (not a copy with null keys — the
                    -- update is applied to a discarded copy) is written
                    -- over the placeholder
                    match bestSorted dist lw1 navaids with
                    | [] => StepRes.finish AOut.crash
                    | r0 :: _ =>
                      StepRes.next (i + 1) eW true true (some r0) none (toks.drop (i + 1)) idx
                        (w3.dropLast ++ [some r0])
                else StepRes.next (i + 1) eW true true lw1 none (toks.drop (i + 1)) idx wps1
              else
                -- lines 123–136: exact path
                match navaids with
                | [r] =>
                  StepRes.next (i + 1) eW true true (some r) none (toks.drop (i + 1)) idx
                    (wps1 ++ [some { r with inAwy? := some none, outAwy? := some none }])
                | [] => StepRes.next (i + 1) eW true true lw1 none (toks.drop (i + 1)) idx wps1
                | rs =>
                  StepRes.finish (AOut.fail (mkFail rem eA lw1 toks i (toks.getD i "") rs) idx wps1)
        else StepRes.next (i + 1) eW eA eD lw1 choice (toks.drop (i + 1)) idx wps1
  else StepRes.finish (AOut.ok idx wps)

/-- The `while i != len(tokens)` loop, driven by fuel.  Exhausted fuel
is the undefined outcome `crash`; the entry point `appendR` supplies
fuel sufficient for every run (at most two iterations happen at any one
token position, since a marker `continue` clears `expecting['direct']`). -/
def appendLoop (dist : Int × Int → Int × Int → Int) (awys : AwyIndex) (toks : List String)
    (bG mOk : Bool) :
    Nat → Nat → Bool → Bool → Bool → Option NavRec → Option (String × Nat) →
    List String → NavIndex → List (Option NavRec) → AOut
  | 0, _, _, _, _, _, _, _, _, _ => AOut.crash
  | fuel + 1, i, eW, eA, eD, lw, choice, rem, idx, wps =>
    match appendStep dist awys toks bG mOk i eW eA eD lw choice rem idx wps with
    | StepRes.finish out => out
    | StepRes.next i' eW' eA' eD' lw' ch' rem' idx' wps' =>
      appendLoop dist awys toks bG mOk fuel i' eW' eA' eD' lw' ch' rem' idx' wps'

/-- `IfrRoute.append(route, bestGuess, missingOk, choice)` acting on an
explicit navaid index and waypoint list.  Initial state per ifrroute.py
lines 37–44: `lastWaypoint = None`, expecting waypoint only,
`remaining` the whole token list. -/
def appendR (dist : Int × Int → Int × Int → Int) (awys : AwyIndex) (idx : NavIndex)
    (wps : List (Option NavRec)) (route : String) (bG mOk : Bool)
    (choice : Option (String × Nat)) : AOut :=
  let toks := tokenize route
  appendLoop dist awys toks bG mOk (2 * toks.length + 2) 0 true false false none choice toks idx wps

/- ## Fixture index (spec section 8): fixes KBOS, KJFK, ORW and the low
airway J121 traversing KBOS → ORW → KJFK. -/

def kbosN : Navaid := { code := "KBOS", lat := 4236, lon := -7100 }

def kjfkN : Navaid := { code := "KJFK", lat := 4064, lon := -7378 }

def orwN : Navaid := { code := "ORW", lat := 4128, lon := -7206 }

def j121 : Airway :=
  { code := "J121", high := false
    waypoints := [{ base := some 180, top := some 450, navaid := kbosN },
                  { base := some 180, top := some 450, navaid := orwN },
                  { base := none, top := none, navaid := kjfkN }] }

def kbosR : NavRec := { nav := kbosN }

def kjfkR : NavRec := { nav := kjfkN }

def orwR : NavRec := { nav := orwN }

def fixIdx : NavIndex := [("KBOS", [kbosR]), ("KJFK", [kjfkR]), ("ORW", [orwR])]

def fixAwys : AwyIndex := [("J121", [j121])]

/-- Distance never influences any claim in this development (the sorted
candidate lists involved are singletons); the constant key makes that
explicit. -/
def dist0 : Int × Int → Int × Int → Int := fun _ _ => 0

/-- KBOS as committed by a direct waypoint commit (null airway keys). -/
def kbosWp : NavRec := { nav := kbosN, inAwy? := some none, outAwy? := some none }

/-- KJFK as committed by a direct waypoint commit. -/
def kjfkWp : NavRec := { nav := kjfkN, inAwy? := some none, outAwy? := some none }

/-- KBOS after its `outAwy` was patched to J121 by `_findAirway`. -/
def kbosOutJ : NavRec := { nav := kbosN, inAwy? := some none, outAwy? := some (some j121) }

/-- ORW as collected by the airway walk: `inAwy = J121`, `outAwy = None`
(navdata.py appends the destination right after it without patching). -/
def orwInJ : NavRec := awyCopy j121 orwN

/-- KJFK as collected by the airway walk (terminal point). -/
def kjfkInJ : NavRec := awyCopy j121 kjfkN

/- ## A second fixture: two fixes sharing the code ABC (spec section 8,
scenario 6), for the ambiguity / choice paths. -/

def abc1R : NavRec := { nav := { code := "ABC", lat := 1000, lon := 1000 } }

def abc2R : NavRec := { nav := { code := "ABC", lat := 2000, lon := 2000 } }

def dupIdx : NavIndex := [("ABC", [abc1R, abc2R])]

/- ## Header validation (navdata.py lines 98–113) -/

/-- The header guards of `_parseData` are written `if line == 1:`,
`elif line == 2:`, `elif line == 3:` — comparing the line's *text* with
an integer.  In Python a `str` never equals an `int`, so each guard is
constantly false; this definition records that semantics. -/
def strEqNat (_line : String) (_n : Nat) : Bool := false

/-- The regular expression match of navdata.py line 105: a non-empty
leading digit run followed by the literal " Version". -/
def versionDigits (line : String) : Option String :=
  let ds := line.data.takeWhile Char.isDigit
  if ds.length ≠ 0 && (String.mk (line.data.drop ds.length)).startsWith " Version" then
    some (String.mk ds)
  else none

/-- The per-line header check of navdata.py lines 99–113, returning the
error message that would be raised (`none` = no error; the version
argument is "640" for awy, "600" for fix, "810" for nav, "850" for apt).
The three inner validations are exactly the source's, but each sits
under a guard `strEqNat line k` that is constantly false. -/
def checkHeaderLine (version : String) (line : String) : Option String :=
  if strEqNat line 1 then
    if line ≠ "I" ∧ line ≠ "A" then some "Invalid origin code" else none
  else if strEqNat line 2 then
    match versionDigits line with
    | none => some "Invalid version string"
    | some d => if d ≠ version then some "Unsupported file format version" else none
  else if strEqNat line 3 then
    if line ≠ "" then some "Expected empty line" else none
  else none

/-- The whole three-line header check: first error wins (the source
raises at the first offending line). -/
def checkHeader (version l1 l2 l3 : String) : Option String :=
  match checkHeaderLine version l1 with
  | some e => some e
  | none =>
    match checkHeaderLine version l2 with
    | some e => some e
    | none => checkHeaderLine version l3

/- ## apt.dat parsing (navdata.py lines 249–309) -/

/-- An airport under construction: collected coordinate tokens (the
numeric fields are retained as their source text — the code only ever
averages them at the end and no claim inspects the numeric values),
elevation token, ICAO code and name. -/
structure Airport where
  coordsR : List (String × String)
  elevR : String
  code : String
  name : String
deriving DecidableEq, Repr

/-- Skip leading whitespace characters. -/
def dropWsC : List Char → List Char
  | [] => []
  | c :: cs => if c.isWhitespace then dropWsC cs else c :: cs

/-- Take the leading non-whitespace run. -/
def takeTokC : List Char → List Char × List Char
  | [] => ([], [])
  | c :: cs =>
    if c.isWhitespace then ([], c :: cs)
    else
      let p := takeTokC cs
      (c :: p.1, p.2)

/-- `line.split(None, maxsplit)`: up to `maxsplit` whitespace splits,
the remainder (stripped of leading whitespace) is kept verbatim as the
final token, and a trailing all-whitespace remainder yields nothing. -/
def splitNAux : Nat → List Char → List String
  | n, cs0 =>
    match dropWsC cs0 with
    | [] => []
    | c :: cs =>
      match n with
      | 0 => [String.mk (c :: cs)]
      | m + 1 =>
        let p := takeTokC (c :: cs)
        String.mk p.1 :: splitNAux m p.2

def splitN (line : String) (maxsplit : Nat) : List String :=
  splitNAux maxsplit line.data

/-- Apply a function to the last airport (`airports[-1]`), mirroring the
in-place mutation of navdata.py lines 287–309. -/
def updLast (airports : List Airport) (f : Airport → Airport) : List Airport :=
  match airports.getLast? with
  | none => []
  | some a => airports.dropLast ++ [f a]

/-- Outcome of one apt.dat data line. -/
inductive AptOut where
  | cont (airports : List Airport)
  | eofStop (airports : List Airport)
  | err (msg : String)
deriving DecidableEq, Repr

/-- One data line of apt.dat (navdata.py lines 249–309): skip empties,
stop on "99", take the first token as the row code, discard codes other
than 1/16/17/100/102/103 (note: the filter admits 102 and not 101),
then dispatch — airport headers open a record, 100 contributes fields
9–10 and 18–19, 101 would contribute fields 4–5 and 7–8 (dead: the
filter already dropped it), 103 contributes fields 2–3, and 102 falls
through every branch contributing nothing. -/
def processAptLine (airports : List Airport) (line : String) : AptOut :=
  if line = "" then AptOut.cont airports
  else if line = "99" then AptOut.eofStop airports
  else
    match (splitN line 1).head? with
    | none => AptOut.err "index error"
    | some code =>
      if code ≠ "1" ∧ code ≠ "16" ∧ code ≠ "17" ∧
         code ≠ "100" ∧ code ≠ "102" ∧ code ≠ "103" then
        AptOut.cont airports
      else if code = "1" ∨ code = "16" ∨ code = "17" then
        let tokens := splitN line 5
        if tokens.length ≠ 6 then AptOut.err "Incorrect number of tokens"
        else
          AptOut.cont (airports ++
            [{ coordsR := [], elevR := tokens.getD 1 "", code := tokens.getD 4 "",
               name := tokens.getD 5 "" }])
      else if airports.length = 0 then
        AptOut.err "Runway before airport header"
      else if code = "100" then
        let tokens := splitN line 25
        if tokens.length ≠ 26 then AptOut.err "Incorrect number of tokens"
        else
          AptOut.cont (updLast airports (fun a =>
            { a with coordsR := a.coordsR ++
                [(tokens.getD 9 "", tokens.getD 10 ""),
                 (tokens.getD 18 "", tokens.getD 19 "")] }))
      else if code = "101" then
        let tokens := splitN line 8
        if tokens.length ≠ 9 then AptOut.err "Incorrect number of tokens"
        else
          AptOut.cont (updLast airports (fun a =>
            { a with coordsR := a.coordsR ++
                [(tokens.getD 4 "", tokens.getD 5 ""),
                 (tokens.getD 7 "", tokens.getD 8 "")] }))
      else if code = "103" then
        let tokens := splitN line 11
        if tokens.length ≠ 12 then AptOut.err "Incorrect number of tokens"
        else
          AptOut.cont (updLast airports (fun a =>
            { a with coordsR := a.coordsR ++ [(tokens.getD 2 "", tokens.getD 3 "")] }))
      else AptOut.cont airports

/- ## Airway assembly (navdata.py lines 311–385) -/

/-- A staged two-point airway segment (navdata.py lines 236–242): the
endpoint stubs are compared by code and coordinate, which is exactly
`Navaid` equality. -/
structure Seg where
  wpA : Navaid
  wpB : Navaid
  high : Bool
  base : Int
  top : Int
deriving DecidableEq, Repr

/-- Patch base/top of the list's last point (navdata.py lines 345–346,
where the previously terminal point receives the joining segment's
levels). -/
def setLastBaseTop (b t : Int) : List AwyPoint → List AwyPoint
  | [] => []
  | [p] => [{ p with base := some b, top := some t }]
  | p :: ps => p :: setLastBaseTop b t ps

/-- Seed an airway from the first staged segment (navdata.py lines
316–328). -/
def seedAirway (ident : String) (s : Seg) : Airway :=
  { code := ident, high := s.high
    waypoints := [{ base := some s.base, top := some s.top, navaid := s.wpA },
                  { base := none, top := none, navaid := s.wpB }] }

/-- Forward extension scan (navdata.py lines 332–354): find the first
remaining segment with matching class and an endpoint equal to the
airway's last point, append the segment's other endpoint, and remove
the segment. -/
def scanFwd (awy : Airway) : List Seg → Option (Airway × List Seg)
  | [] => none
  | s :: rest =>
    match awy.waypoints.getLast? with
    | none => none
    | some lastPt =>
      if s.high = awy.high ∧ (s.wpA = lastPt.navaid ∨ s.wpB = lastPt.navaid) then
        let nxt := if s.wpB = lastPt.navaid then s.wpA else s.wpB
        some ({ awy with waypoints :=
                  setLastBaseTop s.base s.top awy.waypoints ++
                    [{ base := none, top := none, navaid := nxt }] }, rest)
      else (scanFwd awy rest).map (fun p => (p.1, s :: p.2))

/-- Backward extension scan (navdata.py lines 358–377): same against
the airway's first point, prepending the other endpoint and carrying
base/top on the newly inserted point. -/
def scanBwd (awy : Airway) : List Seg → Option (Airway × List Seg)
  | [] => none
  | s :: rest =>
    match awy.waypoints.head? with
    | none => none
    | some headPt =>
      if s.high = awy.high ∧ (s.wpA = headPt.navaid ∨ s.wpB = headPt.navaid) then
        let nxt := if s.wpA = headPt.navaid then s.wpB else s.wpA
        some ({ awy with waypoints :=
                  { base := some s.base, top := some s.top, navaid := nxt } :: awy.waypoints },
              rest)
      else (scanBwd awy rest).map (fun p => (p.1, s :: p.2))

/-- The inner `while True` loop (navdata.py lines 330–380): try a
forward extension, else a backward one, else the airway is complete.
Fuel-driven; every successful scan removes exactly one segment, so fuel
exceeding the number of staged segments never runs out (theorem
`c10_assembler_terminates`). -/
def extendLoop : Nat → Airway → List Seg → Option (Airway × List Seg)
  | 0, _, _ => none
  | fuel + 1, awy, segs =>
    match scanFwd awy segs with
    | some p => extendLoop fuel p.1 p.2
    | none =>
      match scanBwd awy segs with
      | some p => extendLoop fuel p.1 p.2
      | none => some (awy, segs)

/-- The outer `while len(segments) != 0` loop for one identifier
(navdata.py lines 313–385): seed from the first segment, extend until
stuck, publish, repeat. -/
def assembleIdent : Nat → String → List Seg → List Airway → Option (List Airway)
  | _, _, [], acc => some acc
  | 0, _, _ :: _, _ => none
  | fuel + 1, ident, s :: segs, acc =>
    match extendLoop (segs.length + 1) (seedAirway ident s) segs with
    | none => none
    | some p => assembleIdent fuel ident p.2 (acc ++ [p.1])

/-- The first staged segment of the fixture airway J121. -/
def segKO : Seg := { wpA := kbosN, wpB := orwN, high := false, base := 180, top := 450 }

/-- The second staged segment of J121. -/
def segOK : Seg := { wpA := orwN, wpB := kjfkN, high := false, base := 180, top := 450 }

/- ## Helper definitions for the general theorems -/

/-- The route waypoint list carried by a non-crash outcome. -/
def aoutWps : AOut → Option (List (Option NavRec))
  | AOut.ok _ w => some w
  | AOut.fail _ _ w => some w
  | AOut.crash => none

/-- A token that resolves as a plain waypoint: it names exactly one
navaid record, names no airway, and is not a routing marker.  On such
tokens every `append` path reduces to a direct commit. -/
def plainTok (idx : NavIndex) (awys : AwyIndex) (t : String) : Bool :=
  (match lookupIdx idx t with
   | some [_] => true
   | _ => false) &&
  (lookupIdx awys t).isNone && !markerTok t

/-- The waypoint committed for a plainly-resolving token: a copy of its
sole record with both airway keys null. -/
def soleWp (idx : NavIndex) (t : String) : Option NavRec :=
  match lookupIdx idx t with
  | some (r :: _) => some { r with inAwy? := some none, outAwy? := some none }
  | _ => none

/-- Extension invariant for one resolver step, used to prove that a
failing `append` never discards previously committed waypoints: any
waypoint list reachable from `wps0` still extends `wps0`, and once a
`lastWaypoint` exists the list is strictly longer than `wps0` (so
in-place patches of the last entry cannot touch `wps0`). -/
def StepExt (wps0 : List (Option NavRec)) : StepRes → Prop
  | StepRes.finish out => ∀ w', aoutWps out = some w' → ∃ t, w' = wps0 ++ t
  | StepRes.next _ _ _ _ lw' _ _ _ wps' =>
      (∃ t, wps' = wps0 ++ t) ∧ (lw'.isSome = true → wps0.length < wps'.length)

/- ## Claim theorems on the concrete fixtures -/

/-- C1.  The seam invariant of resolved routes fails on the code: the
successful resolution of "KBOS J121 KJFK" (spec section 8, scenario 2)
commits three waypoints whose first seam is well-formed but whose second
seam has `outAwy = None` on ORW against `inAwy = J121` on KJFK — the
destination-append path of `NavData.findAirway` (navdata.py lines 59–66)
never patches the preceding waypoint's `outAwy`. -/
theorem c1_seam_invariant_violated :
    appendR dist0 fixAwys fixIdx [] "KBOS J121 KJFK" true false none =
      AOut.ok fixIdx [some kbosOutJ, some orwInJ, some kjfkInJ] ∧
    seamOk kbosOutJ orwInJ ∧ ¬ seamOk orwInJ kjfkInJ := by
  exact ⟨by decide, by decide, by decide⟩

/-- C3.  The routing-marker branch (ifrroute.py lines 46–51) does not
advance the scan: `continue` re-enters the loop at the same token with
`expecting['direct']` cleared, so DCT is then looked up as a navaid and
`append("KBOS DCT KJFK", bestGuess=True, missingOk=False)` returns a
failure on code "DCT" with only KBOS committed, instead of succeeding
with [KBOS, KJFK]. -/
theorem c3_marker_not_consumed :
    appendR dist0 fixAwys fixIdx [] "KBOS DCT KJFK" true false none =
      AOut.fail { remaining := ["DCT", "KJFK"], navaid := true, code := "DCT",
                  choices := [], wp1 := none, wp2 := none } fixIdx [some kbosWp] := by
  decide

/-- C5.  The navaid index is not immutable under route resolution: an
ambiguity failure hands out the stored records as `choices`, and
re-invoking `append` with one of them as `choice` executes
`choice.update(inAwy = None, outAwy = None)` (ifrroute.py line 68),
which writes the two keys into the record stored in the index. -/
theorem c5_choice_mutates_index :
    appendR dist0 [] dupIdx [] "ABC" false false none =
      AOut.fail { remaining := ["ABC"], navaid := true, code := "ABC",
                  choices := [abc1R, abc2R], wp1 := none, wp2 := none } dupIdx [] ∧
    appendR dist0 [] dupIdx [] "ABC" false false (some ("ABC", 0)) =
      AOut.ok [("ABC", [{ abc1R with inAwy? := some none, outAwy? := some none }, abc2R])] [none] ∧
    [("ABC", [{ abc1R with inAwy? := some none, outAwy? := some none }, abc2R])] ≠ dupIdx := by
  exact ⟨by decide, by decide, by decide⟩

/-- C6.  Committing a `choice` does not append the candidate record:
`self.waypoints.append(choice.update(...))` (ifrroute.py line 68)
appends the return value of `dict.update`, which is Python `None`, so
the route gains a null entry instead of a waypoint carrying the chosen
candidate's code and coordinates. -/
theorem c6_choice_commits_none :
    appendR dist0 [] dupIdx [] "ZZZ" false false (some ("ABC", 1)) =
      AOut.ok [("ABC", [abc1R, { abc2R with inAwy? := some none, outAwy? := some none }])] [none] ∧
    (none : Option NavRec) ≠
      some { abc2R with inAwy? := some none, outAwy? := some none } := by
  exact ⟨by decide, by decide⟩

/-- C8 counterexample.  `append` is not left-associative even without
any mid-stream ambiguity: on the section-8 fixture (every identifier
resolves to exactly one record), "KBOS J121 KJFK" in one call resolves
the airway to three annotated waypoints, while "KBOS J121" followed by
"KJFK" fails on the first call (the trailing airway token cannot attach)
and the two calls leave a different committed sequence. -/
theorem c8_not_left_associative :
    appendR dist0 fixAwys fixIdx [] "KBOS J121 KJFK" true false none =
      AOut.ok fixIdx [some kbosOutJ, some orwInJ, some kjfkInJ] ∧
    appendR dist0 fixAwys fixIdx [] "KBOS J121" true false none =
      AOut.fail { remaining := ["J121"], navaid := true, code := "J121",
                  choices := [], wp1 := none, wp2 := none } fixIdx [some kbosWp] ∧
    appendR dist0 fixAwys fixIdx [some kbosWp] "KJFK" true false none =
      AOut.ok fixIdx [some kbosWp, some kjfkWp] ∧
    [some kbosWp, some kjfkWp] ≠ [some kbosOutJ, some orwInJ, some kjfkInJ] := by
  exact ⟨by decide, by decide, by decide, by decide⟩

/-- C4.  Header validation at load never fires: each of the three
checks of navdata.py lines 100–112 sits under a guard comparing the
line's text with an integer (`if line == 1:` etc.), which is always
false in Python, so every header — malformed or not — passes and the
load proceeds to the data lines. -/
theorem c4_header_checks_never_fire :
    (∀ version line, checkHeaderLine version line = none) ∧
    checkHeader "640" "X" "garbage" "not empty" = none := by
  constructor
  · intro version line
    simp [checkHeaderLine, strEqNat]
  · decide

/-- C7.  Water-runway rows never contribute: a row whose code (first
token) is "101" is discarded by the row-code filter of navdata.py lines
258–261 (which admits 102 but not 101), so the water-runway branch at
lines 291–300 is dead and the current airport's coordinate list is left
unchanged. -/
theorem c7_water_runway_dropped (airports : List Airport) (line : String)
    (h : (splitN line 1).head? = some "101") :
    processAptLine airports line = AptOut.cont airports := by
  have hne : line ≠ "" := by
    intro he
    rw [he] at h
    exact absurd h (by decide)
  have hne99 : line ≠ "99" := by
    intro he
    rw [he] at h
    exact absurd h (by decide)
  unfold processAptLine
  rw [if_neg hne, if_neg hne99, h]
  simp

theorem c7_water_runway_dropped_witness :
    (splitN "101 18 1 N 42.00 -71.00 S 41.90 -70.90" 1).head? = some "101" ∧
    processAptLine [{ coordsR := [], elevR := "19", code := "KBOS", name := "Boston" }]
      "101 18 1 N 42.00 -71.00 S 41.90 -70.90" =
      AptOut.cont [{ coordsR := [], elevR := "19", code := "KBOS", name := "Boston" }] :=
  ⟨by decide, c7_water_runway_dropped _ _ (by decide)⟩

/- ## C10: termination of the airway assembler -/

theorem scanFwd_removes_one (awy : Airway) :
    ∀ (segs : List Seg) (p : Airway × List Seg),
      scanFwd awy segs = some p → p.2.length + 1 = segs.length := by
  intro segs
  induction segs with
  | nil => intro p h; simp [scanFwd] at h
  | cons s rest ih =>
    intro p h
    unfold scanFwd at h
    split at h
    · exact absurd h (by simp)
    · split at h
      · simp only [Option.some.injEq] at h
        subst h
        simp
      · cases hr : scanFwd awy rest with
        | none => rw [hr] at h; simp at h
        | some q =>
          rw [hr] at h
          simp only [Option.map_some', Option.some.injEq] at h
          subst h
          have := ih q hr
          simp only [List.length_cons]
          omega

theorem scanBwd_removes_one (awy : Airway) :
    ∀ (segs : List Seg) (p : Airway × List Seg),
      scanBwd awy segs = some p → p.2.length + 1 = segs.length := by
  intro segs
  induction segs with
  | nil => intro p h; simp [scanBwd] at h
  | cons s rest ih =>
    intro p h
    unfold scanBwd at h
    split at h
    · exact absurd h (by simp)
    · split at h
      · simp only [Option.some.injEq] at h
        subst h
        simp
      · cases hr : scanBwd awy rest with
        | none => rw [hr] at h; simp at h
        | some q =>
          rw [hr] at h
          simp only [Option.map_some', Option.some.injEq] at h
          subst h
          have := ih q hr
          simp only [List.length_cons]
          omega

theorem extendLoop_segs_le :
    ∀ (fuel : Nat) (awy : Airway) (segs : List Seg) (p : Airway × List Seg),
      extendLoop fuel awy segs = some p → p.2.length ≤ segs.length := by
  intro fuel
  induction fuel with
  | zero => intro awy segs p h; simp [extendLoop] at h
  | succ n ih =>
    intro awy segs p h
    unfold extendLoop at h
    cases hf : scanFwd awy segs with
    | some q =>
      rw [hf] at h
      have h1 := scanFwd_removes_one awy segs q hf
      have h2 := ih q.1 q.2 p h
      omega
    | none =>
      rw [hf] at h
      cases hb : scanBwd awy segs with
      | some q =>
        rw [hb] at h
        have h1 := scanBwd_removes_one awy segs q hb
        have h2 := ih q.1 q.2 p h
        omega
      | none =>
        rw [hb] at h
        simp only [Option.some.injEq] at h
        subst h
        simp

theorem extendLoop_total :
    ∀ (fuel : Nat) (awy : Airway) (segs : List Seg), segs.length < fuel →
      (extendLoop fuel awy segs).isSome = true := by
  intro fuel
  induction fuel with
  | zero => intro awy segs h; exact absurd h (by omega)
  | succ n ih =>
    intro awy segs h
    unfold extendLoop
    cases hf : scanFwd awy segs with
    | some q =>
      have h1 := scanFwd_removes_one awy segs q hf
      exact ih q.1 q.2 (by omega)
    | none =>
      cases hb : scanBwd awy segs with
      | some q =>
        have h1 := scanBwd_removes_one awy segs q hb
        exact ih q.1 q.2 (by omega)
      | none => simp

theorem assembleIdent_total :
    ∀ (fuel : Nat) (segs : List Seg) (ident : String) (acc : List Airway),
      segs.length < fuel → (assembleIdent fuel ident segs acc).isSome = true := by
  intro fuel
  induction fuel with
  | zero => intro segs ident acc h; exact absurd h (by omega)
  | succ n ih =>
    intro segs ident acc h
    match segs with
    | [] => simp [assembleIdent]
    | s :: ss =>
      unfold assembleIdent
      cases hE : extendLoop (ss.length + 1) (seedAirway ident s) ss with
      | none =>
        have htot := extendLoop_total (ss.length + 1) (seedAirway ident s) ss (by omega)
        rw [hE] at htot
        simp at htot
      | some p =>
        have hle := extendLoop_segs_le (ss.length + 1) (seedAirway ident s) ss p hE
        simp only [List.length_cons] at h
        exact ih p.2 ident (acc ++ [p.1]) (by omega)

/-- C10.  The airway assembly loop terminates and its per-identifier
work is bounded by the number of staged segments: each forward or
backward extension removes exactly one segment, each seeding removes
one, so fuel exceeding the staged-segment count is never exhausted. -/
theorem c10_assembler_terminates :
    (∀ (awy : Airway) (segs : List Seg) (p : Airway × List Seg),
        scanFwd awy segs = some p → p.2.length + 1 = segs.length) ∧
    (∀ (awy : Airway) (segs : List Seg) (p : Airway × List Seg),
        scanBwd awy segs = some p → p.2.length + 1 = segs.length) ∧
    (∀ (ident : String) (segs : List Seg) (fuel : Nat) (acc : List Airway),
        segs.length < fuel → (assembleIdent fuel ident segs acc).isSome = true) :=
  ⟨fun awy segs p h => scanFwd_removes_one awy segs p h,
   fun awy segs p h => scanBwd_removes_one awy segs p h,
   fun ident segs fuel acc h => assembleIdent_total fuel segs ident acc h⟩

theorem c10_assembler_terminates_witness :
    (([] : List Seg).length + 1 = [segOK].length) ∧
    (([] : List Seg).length + 1 = [segKO].length) ∧
    (assembleIdent 3 "J121" [segKO, segOK] []).isSome = true :=
  ⟨c10_assembler_terminates.1 (seedAirway "J121" segKO) [segOK] (j121, []) (by decide),
   c10_assembler_terminates.2.1 (seedAirway "J121" segOK) [segKO] (j121, []) (by decide),
   c10_assembler_terminates.2.2 "J121" [segKO, segOK] 3 [] (by decide)⟩

/- ## C2: postcondition of NavData.findAirway -/

theorem setLastOut_mem (a : Airway) :
    ∀ (acc : List NavRec) (r' : NavRec), r' ∈ setLastOut a acc →
      ∃ r, r ∈ acc ∧ r'.nav = r.nav ∧ r'.inAwy? = r.inAwy? := by
  intro acc
  induction acc with
  | nil => intro r' h; simp [setLastOut] at h
  | cons r rest ih =>
    intro r' h
    cases rest with
    | nil =>
      simp [setLastOut] at h
      subst h
      exact ⟨r, by simp, rfl, rfl⟩
    | cons r2 rest2 =>
      rw [show setLastOut a (r :: r2 :: rest2) = r :: setLastOut a (r2 :: rest2) from rfl] at h
      rcases List.mem_cons.mp h with h1 | h2
      · exact ⟨r, by simp, by rw [h1], by rw [h1]⟩
      · rcases ih r' h2 with ⟨r3, hm, hn, hi⟩
        exact ⟨r3, by simp [hm], hn, hi⟩

theorem setLastOut_head (a : Airway) (r : NavRec) (rest : List NavRec) :
    ∃ r0 rest0, setLastOut a (r :: rest) = r0 :: rest0 ∧ r0.nav = r.nav := by
  cases rest with
  | nil => exact ⟨{ r with outAwy? := some (some a) }, [], rfl, rfl⟩
  | cons r2 rest2 => exact ⟨r, setLastOut a (r2 :: rest2), rfl, rfl⟩

theorem walkA_post (a : Airway) (srcCode dest : String) :
    ∀ (pts : List AwyPoint) (fS fD : Bool) (acc ws : List NavRec),
      (∀ r ∈ acc, r.nav.code ≠ srcCode ∧ r.inAwy? = some (some a)) →
      (fS = false → fD = false → acc = []) →
      (fD = true → ∃ r rest0, acc = r :: rest0 ∧ r.nav.code = dest) →
      walkA a srcCode dest pts fS fD acc = some ws →
      ws ≠ [] ∧ (∃ last, ws.getLast? = some last ∧ last.nav.code = dest) ∧
        (∀ r ∈ ws, r.nav.code ≠ srcCode ∧ r.inAwy? = some (some a)) := by
  intro pts
  induction pts with
  | nil => intro fS fD acc ws _ _ _ h; simp [walkA] at h
  | cons p rest ih =>
    intro fS fD acc ws hAll hEmp hHead h
    simp only [walkA] at h
    by_cases h1 : p.navaid.code = srcCode
    · rw [if_pos h1] at h
      cases fD with
      | true =>
        rw [if_pos rfl] at h
        simp only [Option.some.injEq] at h
        subst h
        rcases hHead rfl with ⟨r, rest0, hacc, hcode⟩
        subst hacc
        refine ⟨by simp, ⟨r, ?_, hcode⟩, ?_⟩
        · rw [List.getLast?_reverse]
          rfl
        · intro r' hr'
          exact hAll r' (List.mem_reverse.mp hr')
      | false =>
        rw [if_neg (by simp)] at h
        exact ih true false acc ws hAll
          (fun hx => absurd hx (by simp))
          (fun hx => absurd hx (by simp)) h
    · rw [if_neg h1] at h
      by_cases h2 : p.navaid.code = dest
      · rw [if_pos h2] at h
        cases fS with
        | true =>
          rw [if_pos rfl] at h
          simp only [Option.some.injEq] at h
          subst h
          refine ⟨by simp, ⟨awyCopy a p.navaid, by rw [List.getLast?_concat], h2⟩, ?_⟩
          intro r' hr'
          rcases List.mem_append.mp hr' with hm | hm
          · exact hAll r' hm
          · rw [List.mem_singleton.mp hm]
            exact ⟨by simpa [awyCopy] using (h2 ▸ h1), rfl⟩
        | false =>
          rw [if_neg (by simp)] at h
          refine ih false true (acc ++ [awyCopy a p.navaid]) ws ?_ ?_ ?_ h
          · intro r' hr'
            rcases List.mem_append.mp hr' with hm | hm
            · exact hAll r' hm
            · rw [List.mem_singleton.mp hm]
              exact ⟨by simpa [awyCopy] using (h2 ▸ h1), rfl⟩
          · intro _ hx
            exact absurd hx (by simp)
          · intro _
            cases fD with
            | true =>
              rcases hHead rfl with ⟨r, rest0, hacc, hcode⟩
              subst hacc
              exact ⟨r, rest0 ++ [awyCopy a p.navaid], by simp, hcode⟩
            | false =>
              rw [hEmp rfl rfl]
              exact ⟨awyCopy a p.navaid, [], rfl, by simpa [awyCopy] using h2⟩
      · rw [if_neg h2] at h
        cases hOr : (fS || fD) with
        | true =>
          rw [hOr, if_pos rfl] at h
          refine ih fS fD (setLastOut a acc ++ [awyCopy a p.navaid]) ws ?_ ?_ ?_ h
          · intro r' hr'
            rcases List.mem_append.mp hr' with hm | hm
            · rcases setLastOut_mem a acc r' hm with ⟨r3, hm3, hn3, hi3⟩
              rcases hAll r3 hm3 with ⟨hc3, hin3⟩
              exact ⟨by rw [hn3]; exact hc3, by rw [hi3]; exact hin3⟩
            · rw [List.mem_singleton.mp hm]
              exact ⟨h1, rfl⟩
          · intro hx hy
            rw [hx, hy] at hOr
            simp at hOr
          · intro hfD
            rcases hHead hfD with ⟨r, rest0, hacc, hcode⟩
            subst hacc
            rcases setLastOut_head a r rest0 with ⟨r0, rest1, heq, hnav⟩
            rw [heq]
            exact ⟨r0, rest1 ++ [awyCopy a p.navaid], by simp, by rw [hnav]; exact hcode⟩
        | false =>
          rw [hOr, if_neg (by simp)] at h
          exact ih fS fD acc ws hAll hEmp hHead h

theorem firstWalk_post (srcCode dest : String) :
    ∀ (l : List Airway) (ws : List NavRec) (a : Airway),
      firstWalk srcCode dest l = some (ws, a) →
      ws ≠ [] ∧ (∃ last, ws.getLast? = some last ∧ last.nav.code = dest) ∧
        ∀ r ∈ ws, r.nav.code ≠ srcCode ∧ r.inAwy? = some (some a) := by
  intro l
  induction l with
  | nil => intro ws a h; simp [firstWalk] at h
  | cons a0 rest ih =>
    intro ws a h
    simp only [firstWalk] at h
    cases hw : walkA a0 srcCode dest a0.waypoints false false [] with
    | some ws0 =>
      rw [hw] at h
      simp only [Option.some.injEq, Prod.mk.injEq] at h
      rcases h with ⟨hws, ha⟩
      subst hws
      subst ha
      exact walkA_post a0 srcCode dest a0.waypoints false false [] ws0
        (by simp) (fun _ _ => rfl) (fun hx => absurd hx (by simp)) hw
    | none =>
      rw [hw] at h
      exact ih ws a h

/-- C2.  Postcondition of `NavData.findAirway(code, src, destCode)`:
either no airway matches, it returns `(None, None)`, and the
route-level wrapper `_findAirway` leaves the route unchanged returning
`(False, src)`; or it returns a traversal `ws` with airway `a` where
`ws` is non-empty, its last element's code is the destination code, no
element carries the source's code (hence the source record is not in
`ws`), and every element has `inAwy` set to `a`. -/
theorem c2_findAirway_postcondition (awys : AwyIndex) (code : String) (src : NavRec)
    (dest : String) :
    (∀ wps, findAirway awys code src dest = none →
        routeFindAirway awys code src dest wps = some (false, src, wps)) ∧
    (∀ ws a, findAirway awys code src dest = some (ws, a) →
        ws ≠ [] ∧ (∃ last, ws.getLast? = some last ∧ last.nav.code = dest) ∧
          src ∉ ws ∧ ∀ r ∈ ws, r.nav.code ≠ src.nav.code ∧ r.inAwy? = some (some a)) := by
  constructor
  · intro wps h
    unfold routeFindAirway
    rw [h]
  · intro ws a h
    unfold findAirway at h
    cases hl : lookupIdx awys code with
    | none => rw [hl] at h; exact absurd h (by simp)
    | some airways =>
      rw [hl] at h
      rcases firstWalk_post src.nav.code dest airways ws a h with ⟨hne, hlast, hall⟩
      refine ⟨hne, hlast, ?_, hall⟩
      intro hmem
      exact absurd rfl (hall src hmem).1

theorem c2_findAirway_postcondition_witness :
    routeFindAirway fixAwys "ZZZZ" kbosR "KJFK" [some kbosWp] =
      some (false, kbosR, [some kbosWp]) ∧
    ([orwInJ, kjfkInJ] ≠ [] ∧
      (∃ last, ([orwInJ, kjfkInJ] : List NavRec).getLast? = some last ∧
        last.nav.code = "KJFK") ∧
      kbosR ∉ ([orwInJ, kjfkInJ] : List NavRec) ∧
      ∀ r ∈ ([orwInJ, kjfkInJ] : List NavRec),
        r.nav.code ≠ kbosR.nav.code ∧ r.inAwy? = some (some j121)) :=
  ⟨(c2_findAirway_postcondition fixAwys "ZZZZ" kbosR "KJFK").1 [some kbosWp] (by decide),
   (c2_findAirway_postcondition fixAwys "J121" kbosR "KJFK").2 [orwInJ, kjfkInJ] j121 (by decide)⟩

/- ## C9: a failing append keeps all previously committed waypoints -/

theorem ext_len_le {α : Type} {a b : List α} (h : ∃ t, b = a ++ t) :
    a.length ≤ b.length := by
  rcases h with ⟨t, rfl⟩
  simp

theorem ext_append {α : Type} {a b : List α} (h : ∃ t, b = a ++ t) (c : List α) :
    ∃ t, b ++ c = a ++ t := by
  rcases h with ⟨t, rfl⟩
  exact ⟨t ++ c, by simp⟩

theorem ext_dropLast_append {α : Type} {a b : List α} (h : ∃ t, b = a ++ t)
    (hlen : a.length < b.length) (c : List α) : ∃ t, b.dropLast ++ c = a ++ t := by
  rcases h with ⟨t, rfl⟩
  have ht : t ≠ [] := by
    intro hc
    subst hc
    simp at hlen
  rw [List.dropLast_append_of_ne_nil a ht]
  exact ⟨t.dropLast ++ c, by simp⟩

theorem routeFindAirway_false (awys : AwyIndex) (code : String) (src : NavRec)
    (dest : String) (wps : List (Option NavRec)) :
    ∀ l2 wps2, routeFindAirway awys code src dest wps = some (false, l2, wps2) →
      l2 = src ∧ wps2 = wps := by
  intro l2 wps2 h
  unfold routeFindAirway at h
  split at h
  · simp only [Option.some.injEq, Prod.mk.injEq, true_and] at h
    exact ⟨h.1.symm, h.2.symm⟩
  · split at h
    · split at h
      · simp at h
      · simp at h
    · simp at h

theorem routeFindAirway_true_ext (awys : AwyIndex) (code : String) (src : NavRec)
    (dest : String) (wps : List (Option NavRec)) :
    ∀ l2 wps2, routeFindAirway awys code src dest wps = some (true, l2, wps2) →
      ∀ wps0, (∃ t, wps = wps0 ++ t) → wps0.length < wps.length →
        (∃ t, wps2 = wps0 ++ t) ∧ wps.length ≤ wps2.length := by
  intro l2 wps2 h wps0 hext hlen
  unfold routeFindAirway at h
  split at h
  · simp at h
  · rename_i ws a hfa
    split at h
    · rename_i r hL
      split at h
      · rename_i last hW
        simp only [Option.some.injEq, Prod.mk.injEq, true_and] at h
        have hwps2 : wps2 = wps.dropLast ++ [some { r with outAwy? := some (some a) }] ++ ws.map some :=
          h.2.symm
        have hwne : wps ≠ [] := by
          intro hc
          rw [hc] at hL
          simp at hL
        constructor
        · rcases ext_dropLast_append hext hlen [some { r with outAwy? := some (some a) }] with ⟨t, ht⟩
          exact ⟨t ++ ws.map some, by rw [hwps2, ht]; simp⟩
        · rw [hwps2]
          simp only [List.length_append, List.length_dropLast, List.length_map,
            List.length_cons, List.length_nil]
          have h1 : 1 ≤ wps.length := by
            cases wps with
            | nil => exact absurd rfl hwne
            | cons _ _ => simp
          omega
      · simp at h
    · simp at h

theorem tryCandidates_ext (awys : AwyIndex) (aTok dTok : String) :
    ∀ (cands : List NavRec) (wpsCur wps0 : List (Option NavRec)),
      (∃ t, wpsCur = wps0 ++ t) → wps0.length < wpsCur.length →
      (∀ l2 w3, tryCandidates awys aTok dTok cands wpsCur = TryOut.found l2 w3 →
          (∃ t, w3 = wps0 ++ t) ∧ wps0.length < w3.length) ∧
      (∀ w3, tryCandidates awys aTok dTok cands wpsCur = TryOut.nofind w3 →
          (∃ t, w3 = wps0 ++ t) ∧ wps0.length < w3.length) := by
  intro cands
  induction cands with
  | nil =>
    intro wpsCur wps0 hext hlen
    constructor
    · intro l2 w3 h
      simp [tryCandidates] at h
    · intro w3 h
      simp only [tryCandidates] at h
      cases h
      exact ⟨hext, hlen⟩
  | cons c cs ih =>
    intro wpsCur wps0 hext hlen
    have hext' : ∃ t, wpsCur.dropLast ++ [some { c with inAwy? := some none, outAwy? := some none }] = wps0 ++ t :=
      ext_dropLast_append hext hlen _
    have hlen' : wps0.length < (wpsCur.dropLast ++ [some { c with inAwy? := some none, outAwy? := some none }]).length := by
      have hne : wpsCur ≠ [] := by
        intro hc
        rw [hc] at hlen
        simp at hlen
      simp only [List.length_append, List.length_dropLast, List.length_cons, List.length_nil]
      have h1 : 1 ≤ wpsCur.length := by
        cases wpsCur with
        | nil => exact absurd rfl hne
        | cons _ _ => simp
      omega
    constructor
    · intro l2 w3 h
      simp only [tryCandidates] at h
      split at h
      · simp at h
      · rename_i lw2 wq hr
        simp only [TryOut.found.injEq] at h
        rcases h with ⟨h1, h2⟩
        subst h1
        subst h2
        rcases routeFindAirway_true_ext awys aTok c dTok _ _ _ hr wps0 hext' hlen' with ⟨he, hl⟩
        exact ⟨he, lt_of_lt_of_le hlen' hl⟩
      · rename_i lq wq hr
        rcases routeFindAirway_false awys aTok c dTok _ _ _ hr with ⟨_, hw⟩
        subst hw
        exact (ih _ wps0 hext' hlen').1 l2 w3 h
    · intro w3 h
      simp only [tryCandidates] at h
      split at h
      · simp at h
      · simp at h
      · rename_i lq wq hr
        rcases routeFindAirway_false awys aTok c dTok _ _ _ hr with ⟨_, hw⟩
        subst hw
        exact (ih _ wps0 hext' hlen').2 w3 h

theorem airStage_fell (awys : AwyIndex) (toks : List String) (i : Nat) (eA : Bool)
    (lw : Option NavRec) (wps : List (Option NavRec)) :
    ∀ lw1 wps1, airStage awys toks i eA lw wps = AirRes.fell lw1 wps1 →
      wps1 = wps ∧ (lw1.isSome = true → lw.isSome = true) := by
  intro lw1 wps1 h
  unfold airStage at h
  split at h
  · split at h
    · split at h
      · split at h
        · simp at h
        · simp at h
        · rename_i l2 w2 hr
          simp only [AirRes.fell.injEq] at h
          rcases h with ⟨h1, h2⟩
          subst h1
          subst h2
          rcases routeFindAirway_false awys (toks.getD i "") _ (toks.getD (i + 1) "") wps _ _ hr with ⟨_, hw⟩
          exact ⟨hw, fun _ => rfl⟩
      · simp only [AirRes.fell.injEq] at h
        rcases h with ⟨h1, h2⟩
        subst h1
        subst h2
        exact ⟨rfl, fun hx => hx⟩
    · simp only [AirRes.fell.injEq] at h
      rcases h with ⟨h1, h2⟩
      subst h1
      subst h2
      exact ⟨rfl, fun hx => hx⟩
  · simp only [AirRes.fell.injEq] at h
    rcases h with ⟨h1, h2⟩
    subst h1
    subst h2
    exact ⟨rfl, fun hx => hx⟩

theorem airStage_went (awys : AwyIndex) (toks : List String) (i : Nat) (eA : Bool)
    (lw : Option NavRec) (wps : List (Option NavRec)) :
    ∀ l2 w2, airStage awys toks i eA lw wps = AirRes.went l2 w2 →
      lw.isSome = true ∧
        ∀ wps0, (∃ t, wps = wps0 ++ t) → wps0.length < wps.length →
          (∃ t, w2 = wps0 ++ t) ∧ wps.length ≤ w2.length := by
  intro l2 w2 h
  unfold airStage at h
  split at h
  · split at h
    · split at h
      · split at h
        · simp at h
        · rename_i l2' w2' hr
          simp only [AirRes.went.injEq] at h
          rcases h with ⟨h1, h2⟩
          subst h1
          subst h2
          refine ⟨rfl, fun wps0 hext hlen => ?_⟩
          exact routeFindAirway_true_ext awys (toks.getD i "") _ (toks.getD (i + 1) "") wps _ _ hr wps0 hext hlen
        · simp at h
      · simp at h
    · simp at h
  · simp at h

theorem ext_len_lt_append {α : Type} {a b : List α} (h : ∃ t, b = a ++ t) (x : α) :
    a.length < (b ++ [x]).length := by
  have h2 := ext_len_le h
  simp only [List.length_append, List.length_cons, List.length_nil]
  omega

theorem appendStep_ext (dist : Int × Int → Int × Int → Int) (awys : AwyIndex)
    (toks : List String) (bG mOk : Bool) (i : Nat) (eW eA eD : Bool)
    (lw : Option NavRec) (choice : Option (String × Nat)) (rem : List String)
    (idx : NavIndex) (wps wps0 : List (Option NavRec))
    (hext : ∃ t, wps = wps0 ++ t)
    (hlw : lw.isSome = true → wps0.length < wps.length) :
    StepExt wps0 (appendStep dist awys toks bG mOk i eW eA eD lw choice rem idx wps) := by
  unfold appendStep
  split
  · split
    · exact ⟨hext, hlw⟩
    · cases hA : airStage awys toks i eA lw wps with
      | crashA =>
        intro w' hw'
        simp [aoutWps] at hw'
      | went l2 w2 =>
        have hwent := airStage_went awys toks i eA lw wps l2 w2 hA
        have hlen := hlw hwent.1
        have hgo := hwent.2 wps0 hext hlen
        try dsimp only
        split
        · intro w' hw'
          simp only [aoutWps, Option.some.injEq] at hw'
          subst hw'
          exact hgo.1
        · exact ⟨hgo.1, fun _ => lt_of_lt_of_le hlen hgo.2⟩
      | fell lw1 wps1 =>
        have hfl := airStage_fell awys toks i eA lw wps lw1 wps1 hA
        rw [hfl.1]
        have hlw1 : lw1.isSome = true → wps0.length < wps.length :=
          fun hx => hlw (hfl.2 hx)
        try dsimp only
        split
        · cases choice with
          | some cref =>
            try dsimp only
            cases hL : lookupIdx idx cref.1 with
            | none =>
              try dsimp only
              intro w' hw'
              simp [aoutWps] at hw'
            | some l =>
              try dsimp only
              cases hG : l.get? cref.2 with
              | none =>
                try dsimp only
                intro w' hw'
                simp [aoutWps] at hw'
              | some r =>
                try dsimp only
                exact ⟨ext_append hext [none], fun _ => ext_len_lt_append hext none⟩
          | none =>
            try dsimp only
            cases hLook : lookupIdx idx (toks.getD i "") with
            | none =>
              try dsimp only
              split
              · intro w' hw'
                simp only [aoutWps, Option.some.injEq] at hw'
                subst hw'
                exact hext
              · exact ⟨hext, hlw1⟩
            | some navaids =>
              try dsimp only
              split
              · split
                · cases hB : bestSorted dist lw1 navaids with
                  | nil =>
                    intro w' hw'
                    simp [aoutWps] at hw'
                  | cons r0 rest0 =>
                    try dsimp only
                    split
                    · rename_i hi2
                      cases hr : routeFindAirway awys (toks.getD (i + 1) "") r0 (toks.getD (i + 2) "")
                          (wps ++ [some { r0 with inAwy? := some none, outAwy? := some none }]) with
                      | none =>
                        try dsimp only
                        intro w' hw'
                        simp [aoutWps] at hw'
                      | some q =>
                        rcases q with ⟨found, lq, wq⟩
                        cases found with
                        | true =>
                          try dsimp only
                          have hre := routeFindAirway_true_ext awys (toks.getD (i + 1) "") r0
                            (toks.getD (i + 2) "") _ _ _ hr wps0 (ext_append hext _)
                            (ext_len_lt_append hext _)
                          exact ⟨hre.1, fun _ => lt_of_lt_of_le (ext_len_lt_append hext _) hre.2⟩
                        | false =>
                          try dsimp only
                          have hrf := routeFindAirway_false awys (toks.getD (i + 1) "") r0
                            (toks.getD (i + 2) "") _ _ _ hr
                          rw [hrf.2]
                          exact ⟨ext_append hext _, fun _ => ext_len_lt_append hext _⟩
                    · exact ⟨ext_append hext _, fun _ => ext_len_lt_append hext _⟩
                · split
                  · have hbase : ∃ t, wps ++ [none] = wps0 ++ t := ext_append hext [none]
                    have hstrict : wps0.length < (wps ++ [none]).length :=
                      ext_len_lt_append hext none
                    cases hT : tryCandidates awys (toks.getD (i + 1) "") (toks.getD (i + 2) "")
                        (bestSorted dist lw1 navaids) (wps ++ [none]) with
                    | crashT =>
                      try dsimp only
                      intro w' hw'
                      simp [aoutWps] at hw'
                    | found l2 w3 =>
                      try dsimp only
                      have hf := (tryCandidates_ext awys (toks.getD (i + 1) "") (toks.getD (i + 2) "")
                        (bestSorted dist lw1 navaids) (wps ++ [none]) wps0 hbase hstrict).1 l2 w3 hT
                      exact ⟨hf.1, fun _ => hf.2⟩
                    | nofind w3 =>
                      try dsimp only
                      have hf := (tryCandidates_ext awys (toks.getD (i + 1) "") (toks.getD (i + 2) "")
                        (bestSorted dist lw1 navaids) (wps ++ [none]) wps0 hbase hstrict).2 w3 hT
                      cases hB : bestSorted dist lw1 navaids with
                      | nil =>
                        intro w' hw'
                        simp [aoutWps] at hw'
                      | cons r0 rest0 =>
                        try dsimp only
                        refine ⟨ext_dropLast_append hf.1 hf.2 [some r0], fun _ => ?_⟩
                        have hne : w3 ≠ [] := by
                          intro hc
                          rw [hc] at hf
                          have h3 := hf.2
                          simp at h3
                        have h1 : 1 ≤ w3.length := by
                          cases w3 with
                          | nil => exact absurd rfl hne
                          | cons _ _ => simp
                        have h2 := hf.2
                        simp only [List.length_append, List.length_dropLast,
                          List.length_cons, List.length_nil]
                        omega
                  · exact ⟨hext, hlw1⟩
              · cases navaids with
                | nil => exact ⟨hext, hlw1⟩
                | cons r rest =>
                  cases rest with
                  | nil =>
                    exact ⟨ext_append hext _, fun _ => ext_len_lt_append hext _⟩
                  | cons r2 rest2 =>
                    intro w' hw'
                    simp only [aoutWps, Option.some.injEq] at hw'
                    subst hw'
                    exact hext
        · exact ⟨hext, hlw1⟩
  · intro w' hw'
    simp only [aoutWps, Option.some.injEq] at hw'
    subst hw'
    exact hext

theorem appendLoop_ext (dist : Int × Int → Int × Int → Int) (awys : AwyIndex)
    (toks : List String) (bG mOk : Bool) :
    ∀ (fuel i : Nat) (eW eA eD : Bool) (lw : Option NavRec)
      (choice : Option (String × Nat)) (rem : List String) (idx : NavIndex)
      (wps wps0 : List (Option NavRec)),
      (∃ t, wps = wps0 ++ t) → (lw.isSome = true → wps0.length < wps.length) →
      ∀ w', aoutWps (appendLoop dist awys toks bG mOk fuel i eW eA eD lw choice rem idx wps) = some w' →
        ∃ t, w' = wps0 ++ t := by
  intro fuel
  induction fuel with
  | zero =>
    intro i eW eA eD lw choice rem idx wps wps0 hext hlw w' hw'
    simp [appendLoop, aoutWps] at hw'
  | succ n ih =>
    intro i eW eA eD lw choice rem idx wps wps0 hext hlw w' hw'
    have hstep := appendStep_ext dist awys toks bG mOk i eW eA eD lw choice rem idx wps wps0 hext hlw
    unfold appendLoop at hw'
    cases hs : appendStep dist awys toks bG mOk i eW eA eD lw choice rem idx wps with
    | finish out =>
      rw [hs] at hw'
      rw [hs] at hstep
      exact hstep w' hw'
    | next i' eW' eA' eD' lw' ch' rem' idx' wps' =>
      rw [hs] at hw'
      rw [hs] at hstep
      exact ih i' eW' eA' eD' lw' ch' rem' idx' wps' wps0 hstep.1 hstep.2 w' hw'

/-- C9.  `append` is not atomic on failure: when a call returns a
`RouteFailure`, every waypoint committed during the call stays in the
route — the final waypoint list extends the pre-call list (nothing is
rolled back). -/
theorem c9_failure_keeps_commits (dist : Int × Int → Int × Int → Int) (awys : AwyIndex)
    (idx : NavIndex) (wps : List (Option NavRec)) (route : String) (bG mOk : Bool)
    (choice : Option (String × Nat)) (f : RouteFailure) (idx' : NavIndex)
    (wps' : List (Option NavRec))
    (h : appendR dist awys idx wps route bG mOk choice = AOut.fail f idx' wps') :
    ∃ t, wps' = wps ++ t := by
  have h3 : appendLoop dist awys (tokenize route) bG mOk
      (2 * (tokenize route).length + 2) 0 true false false none choice (tokenize route) idx wps =
      AOut.fail f idx' wps' := h
  have h2 : aoutWps (appendLoop dist awys (tokenize route) bG mOk
      (2 * (tokenize route).length + 2) 0 true false false none choice (tokenize route) idx wps) =
      some wps' := by
    rw [h3]
    rfl
  exact appendLoop_ext dist awys (tokenize route) bG mOk
    (2 * (tokenize route).length + 2) 0 true false false none choice (tokenize route) idx wps wps
    ⟨[], by simp⟩ (fun hx => absurd hx (by simp)) wps' h2

theorem c9_failure_keeps_commits_witness :
    ∃ t, [some kbosR, some kbosWp] = [some kbosR] ++ t :=
  c9_failure_keeps_commits dist0 fixAwys fixIdx [some kbosR] "KBOS XYZZY" true false none
    { remaining := ["XYZZY"], navaid := true, code := "XYZZY", choices := [],
      wp1 := none, wp2 := none } fixIdx [some kbosR, some kbosWp] (by decide)

theorem getD_eq_elem {α : Type} (l : List α) (i : Nat) (d : α) (h : i < l.length) :
    l.getD i d = l[i] := by
  rw [List.getD_eq_getElem?_getD, List.getElem?_eq_getElem h]
  rfl

theorem getD_mem {α : Type} (l : List α) (i : Nat) (d : α) (h : i < l.length) :
    l.getD i d ∈ l := by
  rw [getD_eq_elem l i d h]
  exact List.getElem_mem h

theorem plainTok_spec (idx : NavIndex) (awys : AwyIndex) (t : String)
    (h : plainTok idx awys t = true) :
    (∃ r, lookupIdx idx t = some [r]) ∧ lookupIdx awys t = none ∧ markerTok t = false := by
  unfold plainTok at h
  simp only [Bool.and_eq_true, Bool.not_eq_true'] at h
  refine ⟨?_, Option.isNone_iff_eq_none.mp h.1.2, h.2⟩
  have h1 := h.1.1
  split at h1
  · rename_i r heq
    exact ⟨r, heq⟩
  · simp at h1

theorem routeFindAirway_noawy (awys : AwyIndex) (c : String) (src : NavRec) (dest : String)
    (wps : List (Option NavRec)) (h : lookupIdx awys c = none) :
    routeFindAirway awys c src dest wps = some (false, src, wps) := by
  unfold routeFindAirway findAirway
  rw [h]

theorem airStage_plain (awys : AwyIndex) (toks : List String) (i : Nat) (eA : Bool)
    (lw : Option NavRec) (wps : List (Option NavRec))
    (h : lookupIdx awys (toks.getD i "") = none) :
    ∃ lwX, airStage awys toks i eA lw wps = AirRes.fell lwX wps := by
  unfold airStage
  cases eA with
  | false => exact ⟨lw, by simp⟩
  | true =>
    rw [if_pos rfl]
    cases lw with
    | none => exact ⟨none, rfl⟩
    | some src =>
      dsimp only
      by_cases hi : (i != toks.length - 1) = true
      · refine ⟨some src, ?_⟩
        rw [if_pos hi, routeFindAirway_noawy awys (toks.getD i "") src (toks.getD (i + 1) "") wps h]
      · exact ⟨some src, by rw [if_neg hi]⟩

theorem appendStep_plain (dist : Int × Int → Int × Int → Int) (awys : AwyIndex)
    (toks : List String) (bG mOk : Bool) (i : Nat) (eA eD : Bool) (lw : Option NavRec)
    (rem : List String) (idx : NavIndex) (wps : List (Option NavRec))
    (hi : i < toks.length)
    (hall : ∀ t ∈ toks, plainTok idx awys t = true) :
    ∃ lwX, appendStep dist awys toks bG mOk i true eA eD lw none rem idx wps =
      StepRes.next (i + 1) true true true lwX none (toks.drop (i + 1)) idx
        (wps ++ [soleWp idx (toks.getD i "")]) := by
  have hpt := plainTok_spec idx awys (toks.getD i "") (hall _ (getD_mem toks i "" hi))
  rcases hpt with ⟨⟨r, hLr⟩, hAn, hMk⟩
  have hsole : soleWp idx (toks.getD i "") =
      some { r with inAwy? := some none, outAwy? := some none } := by
    unfold soleWp
    rw [hLr]
  obtain ⟨lwX, hAS⟩ := airStage_plain awys toks i eA lw wps hAn
  have hbs : bestSorted dist lwX [r] = [r] := rfl
  have hgd : toks.getD i "" = toks[i] := getD_eq_elem toks i "" hi
  rw [hgd] at hLr hMk hsole
  cases bG with
  | false =>
    refine ⟨some r, ?_⟩
    simp [appendStep, hi, hMk, hAS, hLr, hsole]
  | true =>
    by_cases hI : i + 2 < toks.length
    · have hAn2 : lookupIdx awys (toks.getD (i + 1) "") = none :=
        (plainTok_spec idx awys _ (hall _ (getD_mem toks (i + 1) "" (by omega)))).2.1
      have hrfa := routeFindAirway_noawy awys (toks.getD (i + 1) "") r (toks.getD (i + 2) "")
        (wps ++ [some { r with inAwy? := some none, outAwy? := some none }]) hAn2
      have hg1 : toks.getD (i + 1) "" = toks[i + 1] := getD_eq_elem toks (i + 1) "" (by omega)
      have hg2 : toks.getD (i + 2) "" = toks[i + 2] := getD_eq_elem toks (i + 2) "" hI
      have hrfa2 := hrfa
      rw [hg1, hg2] at hrfa2
      have hg1' : toks[i + 1]? = some toks[i + 1] := List.getElem?_eq_getElem (by omega)
      refine ⟨some r, ?_⟩
      simp [appendStep, hi, hMk, hAS, hLr, hbs, hI, hrfa, hrfa2, hsole, hg1']
    · refine ⟨lwX, ?_⟩
      simp [appendStep, hi, hMk, hAS, hLr, hbs, hI, hsole]

theorem appendLoop_plain (dist : Int × Int → Int × Int → Int) (awys : AwyIndex)
    (toks : List String) (bG mOk : Bool) (idx : NavIndex)
    (hall : ∀ t ∈ toks, plainTok idx awys t = true) :
    ∀ (fuel i : Nat) (eA eD : Bool) (lw : Option NavRec) (rem : List String)
      (wps : List (Option NavRec)),
      i ≤ toks.length → toks.length - i < fuel →
      appendLoop dist awys toks bG mOk fuel i true eA eD lw none rem idx wps =
        AOut.ok idx (wps ++ (toks.drop i).map (fun t => soleWp idx t)) := by
  intro fuel
  induction fuel with
  | zero =>
    intro i eA eD lw rem wps hle hfuel
    omega
  | succ n ih =>
    intro i eA eD lw rem wps hle hfuel
    by_cases hi : i < toks.length
    · obtain ⟨lwX, hstep⟩ := appendStep_plain dist awys toks bG mOk i eA eD lw rem idx wps hi hall
      unfold appendLoop
      rw [hstep]
      try dsimp only
      rw [ih (i + 1) true true lwX (toks.drop (i + 1))
        (wps ++ [soleWp idx (toks.getD i "")]) (by omega) (by omega)]
      have hdrop : toks.drop i = toks[i] :: toks.drop (i + 1) := List.drop_eq_getElem_cons hi
      rw [hdrop, List.map_cons, List.append_assoc]
      rw [getD_eq_elem toks i "" hi]
      rfl
    · have hieq : i = toks.length := by omega
      subst hieq
      have hstep : appendStep dist awys toks bG mOk toks.length true eA eD lw none rem idx wps =
          StepRes.finish (AOut.ok idx wps) := by
        unfold appendStep
        rw [if_neg (by omega)]
      unfold appendLoop
      rw [hstep]
      try dsimp only
      simp

/-- C8 amended.  `append` is left-associative on plainly-resolving
routes: when every token of A and B names exactly one navaid record, is
not an airway identifier in the index, and is not a routing marker,
appending "A B" in one call equals appending A and then B — all tokens
commit as direct waypoints with null airway annotations, the index is
untouched, and the committed sequences agree.  (In general the law
fails: see the counterexample theorem.) -/
theorem c8_left_assoc_plain (dist : Int × Int → Int × Int → Int) (awys : AwyIndex)
    (idx : NavIndex) (bG mOk : Bool) (A B : String) (wps : List (Option NavRec))
    (hsplit : tokenize (A ++ " " ++ B) = tokenize A ++ tokenize B)
    (hA : ∀ t ∈ tokenize A, plainTok idx awys t = true)
    (hB : ∀ t ∈ tokenize B, plainTok idx awys t = true) :
    appendR dist awys idx wps A bG mOk none =
      AOut.ok idx (wps ++ (tokenize A).map (fun t => soleWp idx t)) ∧
    appendR dist awys idx (wps ++ (tokenize A).map (fun t => soleWp idx t)) B bG mOk none =
      AOut.ok idx ((wps ++ (tokenize A).map (fun t => soleWp idx t)) ++
        (tokenize B).map (fun t => soleWp idx t)) ∧
    appendR dist awys idx wps (A ++ " " ++ B) bG mOk none =
      AOut.ok idx ((wps ++ (tokenize A).map (fun t => soleWp idx t)) ++
        (tokenize B).map (fun t => soleWp idx t)) := by
  refine ⟨?_, ?_, ?_⟩
  · show appendLoop dist awys (tokenize A) bG mOk (2 * (tokenize A).length + 2) 0
        true false false none none (tokenize A) idx wps = _
    rw [appendLoop_plain dist awys (tokenize A) bG mOk idx hA
      (2 * (tokenize A).length + 2) 0 false false none (tokenize A) wps (by omega) (by omega)]
    simp
  · show appendLoop dist awys (tokenize B) bG mOk (2 * (tokenize B).length + 2) 0
        true false false none none (tokenize B) idx
        (wps ++ (tokenize A).map (fun t => soleWp idx t)) = _
    rw [appendLoop_plain dist awys (tokenize B) bG mOk idx hB
      (2 * (tokenize B).length + 2) 0 false false none (tokenize B)
      (wps ++ (tokenize A).map (fun t => soleWp idx t)) (by omega) (by omega)]
    simp
  · show appendLoop dist awys (tokenize (A ++ " " ++ B)) bG mOk
        (2 * (tokenize (A ++ " " ++ B)).length + 2) 0 true false false none none
        (tokenize (A ++ " " ++ B)) idx wps = _
    rw [hsplit]
    have hall : ∀ t ∈ tokenize A ++ tokenize B, plainTok idx awys t = true := by
      intro t ht
      rcases List.mem_append.mp ht with h1 | h1
      · exact hA t h1
      · exact hB t h1
    rw [appendLoop_plain dist awys (tokenize A ++ tokenize B) bG mOk idx hall
      (2 * (tokenize A ++ tokenize B).length + 2) 0 false false none
      (tokenize A ++ tokenize B) wps (by omega) (by omega)]
    simp [List.map_append]

theorem c8_left_assoc_plain_witness :
    appendR dist0 fixAwys fixIdx [] "KBOS" true false none =
      AOut.ok fixIdx ([] ++ (tokenize "KBOS").map (fun t => soleWp fixIdx t)) ∧
    appendR dist0 fixAwys fixIdx ([] ++ (tokenize "KBOS").map (fun t => soleWp fixIdx t))
        "KJFK" true false none =
      AOut.ok fixIdx (([] ++ (tokenize "KBOS").map (fun t => soleWp fixIdx t)) ++
        (tokenize "KJFK").map (fun t => soleWp fixIdx t)) ∧
    appendR dist0 fixAwys fixIdx [] ("KBOS" ++ " " ++ "KJFK") true false none =
      AOut.ok fixIdx (([] ++ (tokenize "KBOS").map (fun t => soleWp fixIdx t)) ++
        (tokenize "KJFK").map (fun t => soleWp fixIdx t)) :=
  c8_left_assoc_plain dist0 fixAwys fixIdx true false "KBOS" "KJFK" []
    (by decide) (by decide) (by decide)
